import Mathlib

/-!
Shallow embedding of the LINE OA chatbot core (src/app.py, src/database.py)
and proofs of the frozen claims about it.

Modelling conventions:
* MongoDB collections are Lean lists of typed documents, in natural
  (insertion) order.  The store primitive `find_one_and_update` is embedded
  as `findOneAndUpdate`, which updates the first matching document and
  returns the post-update document (the code always passes
  `return_document=True` / `ReturnDocument.AFTER`).
* Timestamps (`datetime.utcnow()` and its `isoformat()` string) are `Nat`.
  ISO-8601 UTC strings of a fixed format compare lexicographically exactly
  as their times compare numerically, so `$gt` on them is `<` on `Nat`.
  The application clock is threaded through `AppState.now` and ticks at
  each `datetime.utcnow()` call site.
* External collaborators (LINE profile fetch, Gemini reply generation, the
  HMAC digest of the request body) are abstract parameters bundled in
  `Ext`; outbound HTTP calls are recorded in a trace of `OutCall`s.
* Python exceptions are modelled with `Option PyErr` results: a handler
  returns the state and outbound calls produced up to the point of the
  exception, plus the exception if one escaped.  MongoDB rejection of an
  update whose `$set` and `$setOnInsert` share a path (server error
  "Updating the path would create a conflict") is `PyErr.mongoConflict`;
  a Python call with a keyword argument the callee does not accept is
  `PyErr.typeError`.
-/

namespace BCLineOA

/-- Exceptions that can escape the embedded code. -/
inductive PyErr where
  | typeError
  | mongoConflict
  deriving Repr, DecidableEq

/-- Outbound HTTP calls made while handling events. -/
inductive OutCall where
  | reply (replyToken text : String)
  | getProfile (userId : String)
  | aiGenerate (text : String)
  deriving Repr, DecidableEq

/-- HTTP response of the webhook endpoint: the acknowledgment object
`\x7b"status": "ok"\x7d` or an HTTPException with a status code. -/
inductive Resp where
  | ok
  | httpError (code : Nat)
  deriving Repr, DecidableEq

/-- Result of `LineService.get_user_profile`: the fields the handlers read. -/
structure Profile where
  displayName : Option String
  pictureUrl : Option String
  deriving Repr, DecidableEq

/-- A document of the `users` collection (src/database.py, UserRepository). -/
structure UserDoc where
  line_user_id : String
  display_name : Option String
  picture_url : Option String
  registered : Bool
  registration_code : Option String
  created_at : Nat
  updated_at : Nat
  registered_at : Option Nat
  deriving Repr, DecidableEq

/-- A document of the `chat_history` collection
(src/database.py, ChatHistoryRepository). -/
structure ChatMsg where
  line_user_id : String
  role : String
  content : String
  created_at : Nat
  deriving Repr, DecidableEq

/-- The nested `data` object of a registration document
(src/database.py, RegistrationRepository). -/
structure RegData where
  registration_code : String
  status : String
  expires_at : Nat
  line_user_id : Option String
  completed_at : Option Nat
  deriving Repr, DecidableEq

/-- A document of the `bcagent_line_registrations` collection: the claim
logic touches only the nested `data` field; `shop_name` stands for the
`shop` object read by the success reply. -/
structure RegDoc where
  data : RegData
  shop_name : String
  deriving Repr, DecidableEq

/-- The shared mutable state: the three collections plus the application
clock (`datetime.utcnow()` readings, strictly increasing per call). -/
structure AppState where
  users : List UserDoc
  chat : List ChatMsg
  regs : List RegDoc
  now : Nat
  deriving Repr, DecidableEq

/-- External collaborators, abstracted: the LINE profile endpoint, the
generative model, and the base64 HMAC-SHA256 digest of this request body
under the configured channel secret. -/
structure Ext where
  profile : String → Option Profile
  ai : String → List ChatMsg → String
  hmacB64 : String

/-- MongoDB `find_one_and_update` with `return_document` AFTER: update the
first document matching `p` with `u`, returning the post-update document,
or `none` (and the unchanged collection) when nothing matches. -/
def findOneAndUpdate (p : α → Bool) (u : α → α) : List α → Option α × List α
  | [] => (none, [])
  | d :: ds =>
    if p d then (some (u d), u d :: ds)
    else
      let r := findOneAndUpdate p u ds
      (r.1, d :: r.2)

/-! ## UserRepository (src/database.py lines 35-98) -/

/-- Paths written by the `$set` document of `create_pending_user`. -/
def userSetPaths : List String :=
  ["line_user_id", "display_name", "picture_url", "registered",
   "registration_code", "created_at", "updated_at"]

/-- Paths written by the `$setOnInsert` document of `create_pending_user`. -/
def userSetOnInsertPaths : List String := ["created_at"]

/-- The effect of the `$set` document of `create_pending_user` on an
existing document: every listed field is overwritten, including
`registered := false` and `registration_code := none`. -/
def pendingSet (line_user_id : String) (display_name picture_url : Option String)
    (now : Nat) (u : UserDoc) : UserDoc :=
  { u with
    line_user_id := line_user_id
    display_name := display_name
    picture_url := picture_url
    registered := false
    registration_code := none
    created_at := now
    updated_at := now }

/-- UserRepository.create_pending_user (src/database.py lines 43-66): an
upsert `find_one_and_update` on `line_user_id` whose update document is
`$set` of the full pending-user record plus `$setOnInsert` of
`created_at`.  MongoDB rejects any update in which two operators write
the same path ("Updating the path would create a conflict"), which this
update does for `created_at`, so the server raises before touching data;
the conflict-free branch is still embedded faithfully below it. -/
def create_pending_user (line_user_id : String)
    (display_name picture_url : Option String) (now : Nat)
    (coll : List UserDoc) : Except PyErr (UserDoc × List UserDoc) :=
  if userSetPaths.any (fun p => userSetOnInsertPaths.contains p) then
    .error .mongoConflict
  else
    match findOneAndUpdate (fun u => u.line_user_id == line_user_id)
        (pendingSet line_user_id display_name picture_url now) coll with
    | (some u, coll2) => .ok (u, coll2)
    | (none, _) =>
      let newU : UserDoc :=
        { line_user_id := line_user_id
          display_name := display_name
          picture_url := picture_url
          registered := false
          registration_code := none
          created_at := now
          updated_at := now
          registered_at := none }
      .ok (newU, coll ++ [newU])

/-- UserRepository.get_user: `find_one` on `line_user_id`. -/
def get_user (line_user_id : String) (coll : List UserDoc) : Option UserDoc :=
  coll.find? (fun u => u.line_user_id == line_user_id)

/-! ## ChatHistoryRepository (src/database.py lines 101-142) -/

/-- ChatHistoryRepository.add_message: `insert_one` of a new turn with the
current time; returns the inserted document and the new collection. -/
def add_message (line_user_id role content : String) (now : Nat)
    (coll : List ChatMsg) : ChatMsg × List ChatMsg :=
  let message : ChatMsg :=
    { line_user_id := line_user_id, role := role, content := content,
      created_at := now }
  (message, coll ++ [message])

/-- The descending-creation-time order used by `get_history`. -/
def createdDesc (a b : ChatMsg) : Prop := b.created_at ≤ a.created_at

instance : DecidableRel createdDesc := fun a b => Nat.decLe b.created_at a.created_at

/-- ChatHistoryRepository.get_history (src/database.py lines 125-135):
filter by user, sort by `created_at` descending, limit, then reverse to
chronological order. -/
def get_history (line_user_id : String) (limit : Nat)
    (coll : List ChatMsg) : List ChatMsg :=
  (((coll.filter (fun m => m.line_user_id == line_user_id)).insertionSort
      createdDesc).take limit).reverse

/-- ChatHistoryRepository.clear_history: `delete_many` on the user,
returning `deleted_count`. -/
def clear_history (line_user_id : String)
    (coll : List ChatMsg) : Nat × List ChatMsg :=
  ((coll.filter (fun m => m.line_user_id == line_user_id)).length,
   coll.filter (fun m => !(m.line_user_id == line_user_id)))

/-! ## RegistrationRepository (src/database.py lines 145-178) -/

/-- The filter of the claim update: code equal, status exactly pending,
expiry strictly greater than the supplied time. -/
def claimFilter (registration_code : String) (now : Nat) (d : RegDoc) : Bool :=
  d.data.registration_code == registration_code &&
    d.data.status == "pending" && decide (now < d.data.expires_at)

/-- The `$set` of the claim update: status completed, user bound,
completion time stamped (same `now` as the filter). -/
def claimUpdate (line_user_id : String) (now : Nat) (d : RegDoc) : RegDoc :=
  { d with data :=
    { d.data with
      status := "completed"
      line_user_id := some line_user_id
      completed_at := some now } }

/-- RegistrationRepository.find_and_claim_registration (src/database.py
lines 153-178): one atomic conditional `find_one_and_update`.  The `now`
argument is the value of `datetime.utcnow().isoformat()` computed by the
application process at the start of the call — an application-supplied
timestamp, not the store clock. -/
def find_and_claim_registration (registration_code line_user_id : String)
    (now : Nat) (coll : List RegDoc) : Option RegDoc × List RegDoc :=
  findOneAndUpdate (claimFilter registration_code now)
    (claimUpdate line_user_id now) coll

/-! ## app.py -/

/-- Literal strings of src/app.py, named so they can be reused. -/
def strText : String := "text"

def roleUser : String := "user"

def roleAssistant : String := "assistant"

def strClearCmd : String := "/clear"

def strUnsupported : String := "ขออภัย ตอนนี้รองรับเฉพาะข้อความตัวอักษรเท่านั้น"

def strKhun : String := "คุณ"

def strCustomer : String := "ลูกค้า"

def clearReply (deleted : Nat) : String :=
  "ลบประวัติแชท " ++ toString deleted ++ " ข้อความแล้ว"

def successReply (shop_name : String) (display_name : Option String) : String :=
  "✅ ลงทะเบียนกับ " ++ shop_name ++ " สำเร็จ!\n\nยินดีต้อนรับคุณ " ++
    display_name.getD strCustomer ++ " 🎉"

def welcomeMessage (display_name : String) : String :=
  "สวัสดีครับ " ++ display_name ++
    "! 🙏\n\nยินดีต้อนรับสู่ AI Chatbot\n\n🔐 กรุณากรอกรหัสลงทะเบียน 4 หลักเพื่อเริ่มใช้งาน"

/-- Python str.strip with no argument: drop whitespace from both ends.
Defined on the character list so that concrete inputs reduce in the
kernel. -/
def pyStrip (s : String) : String :=
  String.mk
    (((s.data.dropWhile Char.isWhitespace).reverse.dropWhile
        Char.isWhitespace).reverse)

/-- Python str.lower, on the character list for kernel reduction. -/
def pyLower (s : String) : String :=
  String.mk (s.data.map Char.toLower)

/-- Python str.isdigit: nonempty and every character a digit. -/
def pyIsDigit (s : String) : Bool :=
  !s.data.isEmpty && s.data.all Char.isDigit

instance exceptDecEq {ε α : Type} [DecidableEq ε] [DecidableEq α] :
    DecidableEq (Except ε α) := fun a b =>
  match a, b with
  | .error e1, .error e2 =>
    if h : e1 = e2 then .isTrue (by rw [h])
    else .isFalse (by intro hc; cases hc; exact h rfl)
  | .error _, .ok _ => .isFalse (by intro hc; cases hc)
  | .ok _, .error _ => .isFalse (by intro hc; cases hc)
  | .ok v1, .ok v2 =>
    if h : v1 = v2 then .isTrue (by rw [h])
    else .isFalse (by intro hc; cases hc; exact h rfl)

/-- app.py verify_signature (lines 37-48): skip when no channel secret is
configured, otherwise constant-time equality of the supplied signature
against the base64 HMAC-SHA256 digest of the body under the secret
(abstracted as `hmacB64`). -/
def verify_signature (secret hmacB64 signature : String) : Bool :=
  if secret == "" then true
  else signature == hmacB64

/-- app.py lines 63-73: look the user up; when absent, fetch the LINE
profile and create a pending user (whose upsert the store rejects, see
`create_pending_user`).  Returns the outbound calls made and either the
user plus resulting state or the escaped exception. -/
def ensureUser (ext : Ext) (user_id : String) (st : AppState) :
    List OutCall × Except PyErr (UserDoc × AppState) :=
  match get_user user_id st.users with
  | some user => ([], .ok (user, st))
  | none =>
    let profile := ext.profile user_id
    match create_pending_user user_id
        (profile.bind (fun p => p.displayName))
        (profile.bind (fun p => p.pictureUrl)) st.now st.users with
    | .error e => ([OutCall.getProfile user_id], .error e)
    | .ok (user, users2) =>
      ([OutCall.getProfile user_id],
       .ok (user, { st with users := users2, now := st.now + 1 }))

/-- Keyword arguments supplied at the claim call site
(src/app.py lines 82-87). -/
def claimCallKwargs : List String :=
  ["registration_code", "line_user_id", "display_name", "picture_url"]

/-- Parameters accepted by RegistrationRepository.find_and_claim_registration
(src/database.py line 153). -/
def claimParams : List String := ["registration_code", "line_user_id"]

/-- The claim call as made by app.py lines 82-87: Python raises TypeError
when a supplied keyword argument is not a parameter of the callee, which
happens here for display_name and picture_url. -/
def claimCall (registration_code line_user_id : String)
    (display_name picture_url : Option String) (st : AppState) :
    Except PyErr (Option RegDoc × AppState) :=
  if claimCallKwargs.all (fun k => claimParams.contains k) then
    let r := find_and_claim_registration registration_code line_user_id
      st.now st.regs
    .ok (r.1, { st with regs := r.2, now := st.now + 1 })
  else .error .typeError

/-- app.py lines 100-119: the ordinary-chat tail of the message handler —
the clear command, else fetch history (bound 10), generate a reply,
append the user turn then the assistant turn, send the reply. -/
def chatFlow (ext : Ext) (user_id reply_token user_message : String)
    (st : AppState) (calls : List OutCall) :
    AppState × List OutCall × Option PyErr :=
  if pyLower user_message == strClearCmd then
    let r := clear_history user_id st.chat
    ({ st with chat := r.2 },
     calls ++ [OutCall.reply reply_token (clearReply r.1)], none)
  else
    let history := get_history user_id 10 st.chat
    let ai_response := ext.ai user_message history
    let chat1 := (add_message user_id roleUser user_message st.now st.chat).2
    let chat2 :=
      (add_message user_id roleAssistant ai_response (st.now + 1) chat1).2
    ({ st with chat := chat2, now := st.now + 2 },
     calls ++
       [OutCall.aiGenerate user_message, OutCall.reply reply_token ai_response],
     none)

/-- app.py handle_message_event (lines 51-119).  A non-text message gets
the fixed unsupported reply; otherwise ensure the user exists, then a
4-digit text attempts the registration claim (a call that raises
TypeError, see `claimCall`) with fall-through to `chatFlow` on absence;
all other text goes to `chatFlow` directly. -/
def handle_message_event (ext : Ext) (user_id reply_token : String)
    (msgType msgText : String) (st : AppState) :
    AppState × List OutCall × Option PyErr :=
  if msgType != strText then
    (st, [OutCall.reply reply_token strUnsupported], none)
  else
    let user_message := pyStrip msgText
    let eu := ensureUser ext user_id st
    match eu.2 with
    | .error e => (st, eu.1, some e)
    | .ok (user, st1) =>
      if pyIsDigit user_message && user_message.length == 4 then
        let display_name := user.display_name
        let picture_url := user.picture_url
        match claimCall user_message user_id display_name picture_url st1 with
        | .error e => (st1, eu.1, some e)
        | .ok (claimed, st2) =>
          match claimed with
          | some reg =>
            (st2,
             eu.1 ++
               [OutCall.reply reply_token
                 (successReply reg.shop_name display_name)],
             none)
          | none => chatFlow ext user_id reply_token user_message st2 eu.1
      else chatFlow ext user_id reply_token user_message st1 eu.1

/-- app.py handle_follow_event (lines 122-137): fetch the profile, upsert
the pending user (rejected by the store, so the exception escapes before
the welcome reply), else send the welcome message. -/
def handle_follow_event (ext : Ext) (user_id reply_token : String)
    (st : AppState) : AppState × List OutCall × Option PyErr :=
  let profile := ext.profile user_id
  let display_name :=
    match profile with
    | some p => p.displayName.getD strKhun
    | none => strKhun
  match create_pending_user user_id (some display_name)
      (profile.bind (fun p => p.pictureUrl)) st.now st.users with
  | .error e => (st, [OutCall.getProfile user_id], some e)
  | .ok (_, users2) =>
    ({ st with users := users2, now := st.now + 1 },
     [OutCall.getProfile user_id,
      OutCall.reply reply_token (welcomeMessage display_name)],
     none)

/-- A parsed webhook event: message events carry the sender, reply token
and message payload; unrecognized types are ignored by the dispatcher. -/
inductive Event where
  | message (userId replyToken msgType msgText : String)
  | follow (userId replyToken : String)
  | other (eventType : String)
  deriving Repr, DecidableEq

/-- Dispatch of one event by type (app.py lines 171-178). -/
def processEvent (ext : Ext) (e : Event) (st : AppState) :
    AppState × List OutCall × Option PyErr :=
  match e with
  | .message uid tok mtype mtext =>
    handle_message_event ext uid tok mtype mtext st
  | .follow uid tok => handle_follow_event ext uid tok st
  | .other _ => (st, [], none)

/-- One iteration of the webhook event loop: run the event from the
current state, keep the state and calls it produced, drop (log) any
escaped exception. -/
def processStep (ext : Ext) (acc : AppState × List OutCall) (e : Event) :
    AppState × List OutCall :=
  let r := processEvent ext e acc.1
  (r.1, acc.2 ++ r.2.1)

/-- The webhook event loop (app.py lines 169-182): each event runs inside
try/except, an escaped exception is logged and dropped, and the loop
continues from the state the failed event reached. -/
def processEvents (ext : Ext) (events : List Event) (st : AppState) :
    AppState × List OutCall :=
  events.foldl (processStep ext) (st, [])

/-- Everything the webhook endpoint produces: the HTTP response, the store
state left behind, and the outbound calls made. -/
structure WebhookResult where
  resp : Resp
  state : AppState
  calls : List OutCall
  deriving Repr, DecidableEq

/-- app.py webhook (lines 140-184).  `parsed` is the result of
request.json() (`none` on a parse failure, acknowledged as ok); an empty
events array is acknowledged before the signature check; a non-empty
signature that fails verification raises HTTPException 400; otherwise
the events are processed and the acknowledgment returned. -/
def webhook (secret : String) (ext : Ext) (signature : String)
    (parsed : Option (List Event)) (st : AppState) : WebhookResult :=
  match parsed with
  | none => ⟨.ok, st, []⟩
  | some events =>
    if events.isEmpty then ⟨.ok, st, []⟩
    else if signature != "" && !(verify_signature secret ext.hmacB64 signature)
    then ⟨.httpError 400, st, []⟩
    else
      let r := processEvents ext events st
      ⟨.ok, r.1, r.2⟩

/-! ## Concrete sample data, used by witnesses and counterexamples -/

/-- A pending, unexpired (until time 100) registration record for code
1234. -/
def sampleReg : RegDoc :=
  { data :=
    { registration_code := "1234"
      status := "pending"
      expires_at := 100
      line_user_id := none
      completed_at := none }
    shop_name := "Shop" }

/-- A user already present in the directory and already registered. -/
def sampleUser : UserDoc :=
  { line_user_id := "U1"
    display_name := some "Alice"
    picture_url := none
    registered := true
    registration_code := some "9999"
    created_at := 0
    updated_at := 0
    registered_at := some 1 }

/-- Concrete external collaborators for closed evaluations. -/
def extSample : Ext :=
  { profile := fun _ => none
    ai := fun _ _ => "ok"
    hmacB64 := "h" }

/-- A concrete store state: the registered user is known, no chat history,
no registration records. -/
def stSample : AppState :=
  { users := [sampleUser], chat := [], regs := [], now := 3 }

/-- `addMessages coll ts` appends the turns `ts` in order through
`add_message`, each with its recorded creation time. -/
def addMessages (coll : List ChatMsg) (ts : List ChatMsg) : List ChatMsg :=
  ts.foldl
    (fun c m => (add_message m.line_user_id m.role m.content m.created_at c).2)
    coll

/-! ## Helper lemmas -/

theorem findOneAndUpdate_fst (p : α → Bool) (u : α → α) (l : List α) :
    (findOneAndUpdate p u l).1 = (l.find? p).map u := by
  induction l with
  | nil => rfl
  | cons d ds ih =>
    by_cases h : p d
    · simp [findOneAndUpdate, h]
    · simp [findOneAndUpdate, h, ih]

theorem findOneAndUpdate_all_false (p : α → Bool) (u : α → α) (l : List α)
    (h : ∀ x ∈ l, ¬ p x) : findOneAndUpdate p u l = (none, l) := by
  induction l with
  | nil => rfl
  | cons d ds ih =>
    have hd : ¬ p d := h d (List.mem_cons_self d ds)
    simp [findOneAndUpdate, hd,
      ih (fun x hx => h x (List.mem_cons_of_mem _ hx))]

theorem findOneAndUpdate_cons_true (p : α → Bool) (u : α → α) (d : α)
    (ds : List α) (h : p d = true) :
    findOneAndUpdate p u (d :: ds) = (some (u d), u d :: ds) := by
  simp [findOneAndUpdate, h]

theorem findOneAndUpdate_append_false (p : α → Bool) (u : α → α)
    (l1 l2 : List α) (h : ∀ x ∈ l1, ¬ p x) :
    findOneAndUpdate p u (l1 ++ l2) =
      ((findOneAndUpdate p u l2).1, l1 ++ (findOneAndUpdate p u l2).2) := by
  induction l1 with
  | nil => rfl
  | cons d ds ih =>
    have hd : ¬ p d := h d (List.mem_cons_self d ds)
    simp [findOneAndUpdate, hd,
      ih (fun x hx => h x (List.mem_cons_of_mem _ hx))]

theorem claimFilter_eq_true_iff (c : String) (now : Nat) (d : RegDoc) :
    claimFilter c now d = true ↔
      d.data.registration_code = c ∧ d.data.status = "pending" ∧
        now < d.data.expires_at := by
  simp [claimFilter, and_assoc]

theorem orderedInsert_of_not_rel (r : α → α → Prop) [DecidableRel r] (a : α)
    (L : List α) (h : ∀ b ∈ L, ¬ r a b) : L.orderedInsert r a = L ++ [a] := by
  induction L with
  | nil => rfl
  | cons b bs ih =>
    simp only [List.orderedInsert]
    rw [if_neg (h b (List.mem_cons_self b bs)),
      ih (fun x hx => h x (List.mem_cons_of_mem _ hx))]
    rfl

theorem insertionSort_desc_of_increasing (l : List ChatMsg)
    (h : l.Pairwise (fun a b => a.created_at < b.created_at)) :
    l.insertionSort createdDesc = l.reverse := by
  induction l with
  | nil => rfl
  | cons a t ih =>
    have hp := List.pairwise_cons.mp h
    have hnot : ∀ b ∈ t.reverse, ¬ createdDesc a b := by
      intro b hb hr
      have hab := hp.1 b (List.mem_reverse.mp hb)
      unfold createdDesc at hr
      omega
    simp only [List.insertionSort]
    rw [ih hp.2, orderedInsert_of_not_rel createdDesc a t.reverse hnot,
      List.reverse_cons]

theorem reverse_take_reverse_eq_drop (l : List ChatMsg) (n : Nat) :
    (l.reverse.take n).reverse = l.drop (l.length - n) := by
  rw [← List.rtake_eq_reverse_take_reverse]
  rfl

theorem addMessages_eq_append (coll ts : List ChatMsg) :
    addMessages coll ts = coll ++ ts := by
  induction ts generalizing coll with
  | nil => simp [addMessages]
  | cons m ms ih =>
    simp only [addMessages, List.foldl_cons]
    have step :
        (add_message m.line_user_id m.role m.content m.created_at coll).2 =
          coll ++ [m] := rfl
    rw [step]
    have h2 := ih (coll ++ [m])
    simp only [addMessages] at h2
    rw [h2, List.append_assoc]
    rfl

theorem foldl_processStep_fst (ext : Ext) :
    ∀ (l : List Event) (s : AppState) (cs : List OutCall),
      (l.foldl (processStep ext) (s, cs)).1 =
        (l.foldl (processStep ext) (s, ([] : List OutCall))).1
  | [], _, _ => rfl
  | e :: es, s, cs => by
    show (es.foldl (processStep ext)
        ((processEvent ext e s).1, cs ++ (processEvent ext e s).2.1)).1 =
      (es.foldl (processStep ext)
        ((processEvent ext e s).1, [] ++ (processEvent ext e s).2.1)).1
    rw [foldl_processStep_fst ext es (processEvent ext e s).1
        (cs ++ (processEvent ext e s).2.1),
      foldl_processStep_fst ext es (processEvent ext e s).1
        ([] ++ (processEvent ext e s).2.1)]

theorem processEvents_fst_cons (ext : Ext) (e : Event) (es : List Event)
    (s : AppState) :
    (processEvents ext (e :: es) s).1 =
      (processEvents ext es (processEvent ext e s).1).1 := by
  simp only [processEvents, List.foldl_cons]
  exact foldl_processStep_fst ext es (processEvent ext e s).1
    (processStep ext (s, []) e).2

theorem processEvents_fst_append (ext : Ext) (l1 l2 : List Event)
    (s : AppState) :
    (processEvents ext (l1 ++ l2) s).1 =
      (processEvents ext l2 (processEvents ext l1 s).1).1 := by
  induction l1 generalizing s with
  | nil => rfl
  | cons e es ih =>
    rw [List.cons_append, processEvents_fst_cons, ih,
      processEvents_fst_cons]

/-! ## Claim theorems -/

/-- C1: a claim attempt is one conditional update: when some record of the
collection passes the filter (code equal to the input, status exactly
pending, expiry strictly above the supplied current time), the operation
returns the post-update first such record — status set to completed, the
user identifier bound, the completion time stamped; when no record
passes the filter (wrong code, already completed, or expired) it returns
absence and leaves the collection unchanged, never an error. -/
theorem claim_conditional_update_spec (registration_code line_user_id : String)
    (now : Nat) (coll : List RegDoc) :
    (∀ d, coll.find? (claimFilter registration_code now) = some d →
      d.data.registration_code = registration_code ∧
      d.data.status = "pending" ∧
      now < d.data.expires_at ∧
      (find_and_claim_registration registration_code line_user_id now coll).1 =
        some (claimUpdate line_user_id now d) ∧
      (claimUpdate line_user_id now d).data.status = "completed" ∧
      (claimUpdate line_user_id now d).data.line_user_id = some line_user_id ∧
      (claimUpdate line_user_id now d).data.completed_at = some now) ∧
    ((∀ d ∈ coll, ¬(d.data.registration_code = registration_code ∧
        d.data.status = "pending" ∧ now < d.data.expires_at)) →
      find_and_claim_registration registration_code line_user_id now coll =
        (none, coll)) := by
  constructor
  · intro d hd
    have hprops := (claimFilter_eq_true_iff registration_code now d).mp
      (List.find?_some hd)
    refine ⟨hprops.1, hprops.2.1, hprops.2.2, ?_, rfl, rfl, rfl⟩
    simp only [find_and_claim_registration]
    rw [findOneAndUpdate_fst, hd]
    rfl
  · intro hnone
    apply findOneAndUpdate_all_false
    intro x hx hpx
    exact hnone x hx ((claimFilter_eq_true_iff registration_code now x).mp hpx)

/-- Witness for C1 at a concrete pending record. -/
theorem claim_conditional_update_spec_witness :
    ([sampleReg].find? (claimFilter "1234" 50) = some sampleReg) ∧
    (find_and_claim_registration "1234" "U1" 50 [sampleReg]).1 =
      some (claimUpdate "U1" 50 sampleReg) ∧
    (claimUpdate "U1" 50 sampleReg).data.status = "completed" := by
  have h := (claim_conditional_update_spec "1234" "U1" 50 [sampleReg]).1
    sampleReg (by decide)
  exact ⟨by decide, h.2.2.2.1, h.2.2.2.2.1⟩

/-- C2: with a single record carrying the code, pending and unexpired at
the first attempt, the first of two claim attempts succeeds and the
second observes absence, whatever user and time the second carries — the
record is never claimed twice. -/
theorem claim_exactly_one_of_two (coll : List RegDoc) (d0 : RegDoc)
    (c u1 u2 : String) (now1 now2 : Nat)
    (hmem : d0 ∈ coll)
    (hcode : d0.data.registration_code = c)
    (huniq : coll.countP (fun d => d.data.registration_code == c) ≤ 1)
    (hpend : d0.data.status = "pending")
    (hexp : now1 < d0.data.expires_at) :
    (find_and_claim_registration c u1 now1 coll).1 =
      some (claimUpdate u1 now1 d0) ∧
    (find_and_claim_registration c u2 now2
        (find_and_claim_registration c u1 now1 coll).2).1 = none := by
  obtain ⟨s, t, rfl⟩ := List.append_of_mem hmem
  have hd0pr : (fun d => d.data.registration_code == c) d0 = true := by
    simp [hcode]
  rw [List.countP_append,
    List.countP_cons_of_pos (fun d => d.data.registration_code == c) t hd0pr]
    at huniq
  have hs0 : ∀ x ∈ s, ¬ (x.data.registration_code == c) :=
    List.countP_eq_zero.mp (by omega)
  have ht0 : ∀ x ∈ t, ¬ (x.data.registration_code == c) :=
    List.countP_eq_zero.mp (by omega)
  have noCode : ∀ (x : RegDoc), ¬ (x.data.registration_code == c) →
      ∀ (n : Nat), ¬ claimFilter c n x := by
    intro x hx n hf
    exact hx (by simp [(claimFilter_eq_true_iff c n x).mp hf])
  have hd0f : claimFilter c now1 d0 = true :=
    (claimFilter_eq_true_iff c now1 d0).mpr ⟨hcode, hpend, hexp⟩
  have hfirst : find_and_claim_registration c u1 now1 (s ++ d0 :: t) =
      (some (claimUpdate u1 now1 d0),
       s ++ claimUpdate u1 now1 d0 :: t) := by
    simp only [find_and_claim_registration]
    rw [findOneAndUpdate_append_false _ _ s (d0 :: t)
        (fun x hx => noCode x (hs0 x hx) now1),
      findOneAndUpdate_cons_true _ _ _ _ hd0f]
  refine ⟨by rw [hfirst], ?_⟩
  rw [hfirst]
  simp only [find_and_claim_registration]
  rw [findOneAndUpdate_fst]
  have hnone : (s ++ claimUpdate u1 now1 d0 :: t).find?
      (claimFilter c now2) = none := by
    rw [List.find?_eq_none]
    intro x hx
    rcases List.mem_append.mp hx with hxs | hxdt
    · exact noCode x (hs0 x hxs) now2
    · rcases List.mem_cons.mp hxdt with hxe | hxt
      · subst hxe
        intro hf
        have := ((claimFilter_eq_true_iff c now2 _).mp hf).2.1
        simp [claimUpdate] at this
      · exact noCode x (ht0 x hxt) now2
  rw [hnone]
  rfl

/-- Witness for C2 at a concrete one-record collection. -/
theorem claim_exactly_one_of_two_witness :
    sampleReg ∈ [sampleReg] ∧ 50 < sampleReg.data.expires_at ∧
    (find_and_claim_registration "1234" "UA" 50 [sampleReg]).1 =
      some (claimUpdate "UA" 50 sampleReg) ∧
    (find_and_claim_registration "1234" "UB" 60
        (find_and_claim_registration "1234" "UA" 50 [sampleReg]).2).1 =
      none := by
  have h := claim_exactly_one_of_two [sampleReg] sampleReg "1234" "UA" "UB"
    50 60 (by decide) (by decide) (by decide) (by decide) (by decide)
  exact ⟨by decide, by decide, h.1, h.2⟩

/-- C3 (refuted by the code): a 4-digit text from a known user with no
matching registration record does not fall through to chat handling —
the handler raises TypeError at the claim call (app.py passes
display_name and picture_url keywords that
find_and_claim_registration does not accept), so no turn is stored and
no reply is sent. -/
theorem four_digit_no_match_raises_type_error :
    handle_message_event extSample "U1" "tok" "text" "1234" stSample =
      (stSample, [], some PyErr.typeError) := by decide

/-- C4 (refuted by the code): the ensure-pending upsert is rejected by the
store because created_at appears in both the set and the set-on-insert
operators, so nothing is refreshed; and its set document, were it
accepted, would reset the registration state of an existing registered
user to pending. -/
theorem ensure_pending_upsert_rejected :
    create_pending_user "U1" (some "Bob") (some "pic") 5 [sampleUser] =
      Except.error PyErr.mongoConflict ∧
    sampleUser.registered = true ∧
    (pendingSet "U1" (some "Bob") (some "pic") 5 sampleUser).registered =
      false := by
  exact ⟨by decide, by decide, rfl⟩

/-- C5: starting from a store with no turns for the user and appending the
turns of T in order with strictly increasing creation times, get_history
with limit N returns the last min(len T, N) turns of T in chronological
oldest-first order — all of T when it fits within N. -/
theorem get_history_returns_last_turns (coll0 : List ChatMsg) (uid : String)
    (N : Nat) (T : List ChatMsg)
    (h0 : coll0.filter (fun m => m.line_user_id == uid) = [])
    (huid : ∀ m ∈ T, m.line_user_id = uid)
    (hinc : T.Pairwise (fun a b => a.created_at < b.created_at)) :
    get_history uid N (addMessages coll0 T) = T.drop (T.length - N) := by
  rw [addMessages_eq_append]
  simp only [get_history]
  rw [List.filter_append, h0, List.nil_append,
    List.filter_eq_self.mpr (fun m hm => by simp [huid m hm]),
    insertionSort_desc_of_increasing T hinc]
  exact reverse_take_reverse_eq_drop T N

/-- Witness for C5: three appended turns, limit 2, yields the last two in
chronological order. -/
theorem get_history_returns_last_turns_witness :
    get_history "U1" 2 (addMessages []
        [⟨"U1", "user", "a", 1⟩, ⟨"U1", "assistant", "b", 2⟩,
         ⟨"U1", "user", "c", 3⟩]) =
      [⟨"U1", "assistant", "b", 2⟩, ⟨"U1", "user", "c", 3⟩] := by
  have h := get_history_returns_last_turns [] "U1" 2
    [⟨"U1", "user", "a", 1⟩, ⟨"U1", "assistant", "b", 2⟩,
     ⟨"U1", "user", "c", 3⟩] (by decide) (by decide) (by decide)
  exact h.trans (by decide)

/-- C6: clear_history deletes exactly the turns of the user, returning how
many there were (0 when none, not an error), and get_history immediately
afterwards is empty for every limit. -/
theorem clear_history_count_and_empties (uid : String) (coll : List ChatMsg)
    (N : Nat) :
    (clear_history uid coll).1 =
      coll.countP (fun m => m.line_user_id == uid) ∧
    get_history uid N (clear_history uid coll).2 = [] := by
  constructor
  · exact (List.countP_eq_length_filter _ _).symm
  · simp only [get_history, clear_history]
    rw [List.filter_filter]
    have hnil : coll.filter
        (fun a => (a.line_user_id == uid) && !(a.line_user_id == uid)) = [] :=
      List.filter_eq_nil_iff.mpr (fun a _ => by simp)
    rw [hnil]
    simp

/-- C7: a webhook request with an empty parsed events array is
acknowledged with ok, changes no store state, makes no outbound call,
and this holds for every signature and secret — in particular for
signatures that would fail verification, so no signature verification
influences the outcome. -/
theorem webhook_empty_events_noop (secret : String) (ext : Ext)
    (signature : String) (st : AppState) :
    webhook secret ext signature (some []) st = ⟨Resp.ok, st, []⟩ := rfl

/-- C8: an event whose processing raises does not prevent the rest of the
batch: the endpoint still acknowledges with ok and the final state is
the one obtained by continuing through the remaining events from the
state the failing event reached. -/
theorem webhook_isolates_event_failure (secret : String) (ext : Ext)
    (st : AppState) (pre post : List Event) (e : Event)
    (herr : (processEvent ext e
        (processEvents ext pre st).1).2.2.isSome = true) :
    (webhook secret ext "" (some (pre ++ e :: post)) st).resp = Resp.ok ∧
    (webhook secret ext "" (some (pre ++ e :: post)) st).state =
      (processEvents ext post
        (processEvent ext e (processEvents ext pre st).1).1).1 := by
  have hne : (pre ++ e :: post).isEmpty = false := by
    cases pre <;> rfl
  constructor
  · simp [webhook, hne]
  · have hst : (webhook secret ext "" (some (pre ++ e :: post)) st).state =
        (processEvents ext (pre ++ e :: post) st).1 := by
      simp [webhook, hne]
    rw [hst, processEvents_fst_append, processEvents_fst_cons]

/-- Witness for C8: a follow event raises (store-rejected upsert) and a
subsequent message event is still processed, the batch acknowledged. -/
theorem webhook_isolates_event_failure_witness :
    (processEvent extSample (Event.follow "U9" "t")
        (processEvents extSample [] stSample).1).2.2.isSome = true ∧
    (webhook "sec" extSample ""
        (some ([] ++ Event.follow "U9" "t" ::
          [Event.message "U1" "tok" "text" "hi"])) stSample).resp =
      Resp.ok ∧
    (webhook "sec" extSample ""
        (some ([] ++ Event.follow "U9" "t" ::
          [Event.message "U1" "tok" "text" "hi"])) stSample).state =
      (processEvents extSample [Event.message "U1" "tok" "text" "hi"]
        (processEvent extSample (Event.follow "U9" "t")
          (processEvents extSample [] stSample).1).1).1 := by
  have h := webhook_isolates_event_failure "sec" extSample stSample []
    [Event.message "U1" "tok" "text" "hi"] (Event.follow "U9" "t")
    (by decide)
  exact ⟨by decide, h.1, h.2⟩

/-- C9 counterexample: the claim decision is not independent of the
application-supplied timestamp — at application clock 50 the concrete
pending record (expiry 100) is claimed, at application clock 150 the
same store contents yield absence, so skew of the application clock
against the store clock changes the outcome. -/
theorem claim_decision_depends_on_app_clock :
    ¬ ((find_and_claim_registration "1234" "U1" 50 [sampleReg]).1 =
       (find_and_claim_registration "1234" "U1" 150 [sampleReg]).1) := by
  decide

/-- C9 amended: the expiry comparison uses a single application-supplied
timestamp per attempt — whenever a claim succeeds, the completion stamp
equals the very timestamp the filter compared the expiry against, the
expiry is strictly above it, and the record is completed. -/
theorem claim_uses_single_app_timestamp (registration_code line_user_id :
    String) (now : Nat) (coll coll2 : List RegDoc) (r : RegDoc)
    (h : find_and_claim_registration registration_code line_user_id now coll =
      (some r, coll2)) :
    r.data.completed_at = some now ∧ now < r.data.expires_at ∧
      r.data.status = "completed" := by
  have h1 : (find_and_claim_registration registration_code line_user_id now
      coll).1 = some r := by rw [h]
  simp only [find_and_claim_registration] at h1
  rw [findOneAndUpdate_fst] at h1
  rcases hopt : coll.find? (claimFilter registration_code now) with _ | d
  · rw [hopt] at h1
    simp at h1
  · rw [hopt] at h1
    have hr : claimUpdate line_user_id now d = r := by simpa using h1
    have hprops := (claimFilter_eq_true_iff registration_code now d).mp
      (List.find?_some hopt)
    rw [← hr]
    exact ⟨rfl, hprops.2.2, rfl⟩

/-- Witness for C9 amended, at the concrete record claimed at time 50. -/
theorem claim_uses_single_app_timestamp_witness :
    (find_and_claim_registration "1234" "U1" 50 [sampleReg] =
      (some (claimUpdate "U1" 50 sampleReg), [claimUpdate "U1" 50 sampleReg])) ∧
    (claimUpdate "U1" 50 sampleReg).data.completed_at = some 50 ∧
    50 < (claimUpdate "U1" 50 sampleReg).data.expires_at := by
  have h := claim_uses_single_app_timestamp "1234" "U1" 50 [sampleReg]
    [claimUpdate "U1" 50 sampleReg] (claimUpdate "U1" 50 sampleReg)
    (by decide)
  exact ⟨by decide, h.1, h.2.1⟩

/-- C10: with a channel secret configured and a non-empty batch, an empty
(or absent) signature header skips verification entirely and the events
are processed with the ok acknowledgment; a non-empty signature is
rejected with HTTP 400 exactly when it differs from the expected digest,
with no event processed, and processed normally when it matches. -/
theorem webhook_signature_policy (secret : String) (ext : Ext)
    (events : List Event) (st : AppState) (sig : String)
    (hsecret : secret ≠ "") (hne : events ≠ []) :
    (webhook secret ext "" (some events) st =
      ⟨Resp.ok, (processEvents ext events st).1,
        (processEvents ext events st).2⟩) ∧
    (sig ≠ "" → sig ≠ ext.hmacB64 →
      webhook secret ext sig (some events) st =
        ⟨Resp.httpError 400, st, []⟩) ∧
    (sig = ext.hmacB64 →
      webhook secret ext sig (some events) st =
        ⟨Resp.ok, (processEvents ext events st).1,
          (processEvents ext events st).2⟩) := by
  have hempty : events.isEmpty = false := by
    cases events with
    | nil => exact absurd rfl hne
    | cons a l => rfl
  refine ⟨?_, ?_, ?_⟩
  · simp [webhook, hempty]
  · intro h1 h2
    have hv : verify_signature secret ext.hmacB64 sig = false := by
      simp [verify_signature, hsecret, h2]
    simp [webhook, hempty, hv, h1]
  · intro h2
    have hv : verify_signature secret ext.hmacB64 sig = true := by
      simp [verify_signature, h2]
    simp [webhook, hempty, hv]

/-- Witness for C10: concrete secret, batch and signatures exercising the
skip, reject and accept branches. -/
theorem webhook_signature_policy_witness :
    (webhook "sec" extSample "" (some [Event.other "x"]) stSample =
      ⟨Resp.ok, stSample, []⟩) ∧
    (webhook "sec" extSample "bad" (some [Event.other "x"]) stSample =
      ⟨Resp.httpError 400, stSample, []⟩) ∧
    (webhook "sec" extSample "h" (some [Event.other "x"]) stSample =
      ⟨Resp.ok, stSample, []⟩) := by
  have h := webhook_signature_policy "sec" extSample [Event.other "x"]
    stSample "bad" (by decide) (by decide)
  have h3 := webhook_signature_policy "sec" extSample [Event.other "x"]
    stSample "h" (by decide) (by decide)
  refine ⟨?_, ?_, ?_⟩
  · exact h.1.trans (by decide)
  · exact (h.2.1 (by decide) (by decide)).trans (by decide)
  · exact (h3.2.2 (by decide)).trans (by decide)

end BCLineOA
